import Mathlib

/-!
Verification of the Minescript ⇆ Mineflayer private bridge
(`private-bot-control/minescript/private_bridge.py`).

The Python source is shallowly embedded: text is `List Char`, JSON-like
payload values are the inductive `Jval`, dictionaries are ordered key/value
lists, float arithmetic on the exactly-representable dyadic backoff and
timing values is `Rat`, and the stateful loops (reconnect backoff, sender,
receiver, sampling cadence) are pure functions over explicit traces.
-/

/-- Python's whitespace class as used by `str.strip`, `str.split` and the
regex class `\s`, restricted to its ASCII members (the only ones the bridge's
inputs exercise; the three Python operations agree on this class). -/
def pyIsSpace (c : Char) : Bool :=
  c == ' ' || c == '\t' || c == '\n' || c == '\r' || c == '\x0b' || c == '\x0c'

/-- Python `str.strip()`: remove leading and trailing whitespace. -/
def pyStrip (s : List Char) : List Char :=
  ((s.dropWhile pyIsSpace).reverse.dropWhile pyIsSpace).reverse

/-- Worker for `pySplit`: `acc` holds the reversed characters of the token
currently being read. -/
def splitAux (s : List Char) (acc : List Char) : List (List Char) :=
  match s with
  | [] => if acc = [] then [] else [acc.reverse]
  | c :: rest =>
    if pyIsSpace c then
      if acc = [] then splitAux rest [] else acc.reverse :: splitAux rest []
    else splitAux rest (c :: acc)

/-- Python `str.split()` with no separator: split on runs of whitespace,
dropping empty tokens. -/
def pySplit (s : List Char) : List (List Char) := splitAux s []

/-- Python `str.lower()` on an ASCII character (the only characters the
lowered verb token can contain, by the whitelist pattern). -/
def pyLower (c : Char) : Char :=
  if 'A' ≤ c ∧ c ≤ 'Z' then Char.ofNat (c.toNat + 32) else c

/-- One alternative of the whitelist regex: `s` begins with the verb `v`
case-insensitively, followed by end-of-string or a whitespace character
(the `(?:\s|$)` tail of `COMMAND_PATTERN`). -/
def matchVerbThen (v : List Char) (s : List Char) : Bool :=
  match v, s with
  | [], [] => true
  | [], c :: _ => pyIsSpace c
  | _ :: _, [] => false
  | a :: v', c :: s' => pyLower c == a && matchVerbThen v' s'

/-- The whitelisted verbs of `COMMAND_PATTERN = ^/(come|follow|mine|hello)`. -/
def VERBS : List (List Char) :=
  [['c', 'o', 'm', 'e'], ['f', 'o', 'l', 'l', 'o', 'w'],
   ['m', 'i', 'n', 'e'], ['h', 'e', 'l', 'l', 'o']]

/-- `COMMAND_PATTERN.match(s)` is not `None`: the line starts with `/`, one
of the whitelisted verbs (case-insensitive), then whitespace or the end. -/
def command_pattern_match (s : List Char) : Bool :=
  match s with
  | [] => false
  | c :: rest => c == '/' && VERBS.any (fun v => matchVerbThen v rest)

/-- `parse_private_command` from the source: `None` for the empty string or
a line whose stripped form misses the whitelist pattern; otherwise the
stripped line with the leading slash removed is whitespace-split, the first
token lower-cased is the verb and the remaining tokens are the arguments. -/
def parse_private_command (msg : List Char) :
    Option (List Char × List (List Char)) :=
  if msg = [] then none
  else if command_pattern_match (pyStrip msg) = false then none
  else
    match pySplit (List.drop 1 (pyStrip msg)) with
    | [] => none
    | name :: args => some (name.map pyLower, args)

/-- String literal to character list (Python strings are modelled as
`List Char`). -/
def str2list (s : String) : List Char := s.data

/-- JSON-like values, the shape of every frame on the wire and of every
item on the send queue (`json.dumps`/`json.loads` payloads). Objects are
ordered key/value lists, as the bridge only ever builds dictionaries with
distinct keys. Numbers are rationals: every numeric value the bridge
handles (protocol version, coordinates, the dyadic backoff delays) is
exactly representable. -/
inductive Jval where
  | jnull : Jval
  | jbool (b : Bool) : Jval
  | jnum (q : Rat) : Jval
  | jstr (s : String) : Jval
  | jarr (xs : List Jval) : Jval
  | jobj (fields : List (String × Jval)) : Jval

open Jval

/-- Python `dict.get(key)` on an ordered field list with distinct keys. -/
def jlookup : List (String × Jval) → String → Option Jval
  | [], _ => none
  | (k, v) :: rest, key => if k = key then some v else jlookup rest key

/-- Whether a JSON object carries a field named `key` (the encoded form
contains the key at all). -/
def jobjHasKey (j : Jval) (key : String) : Bool :=
  match j with
  | jobj fields => fields.any (fun kv => kv.1 == key)
  | _ => false

/-- Whether a decoded value is a JSON object (a Python `dict`, the only
shape on which `data.get` does not raise). -/
def isJObj : Jval → Bool
  | jobj _ => true
  | _ => false

/-- `PROTOCOL_VERSION = 1` from the source. -/
def PROTOCOL_VERSION : Int := 1

/-- `STATE_INTERVAL_MS = 125` from the source (~8 Hz). -/
def STATE_INTERVAL_MS : Rat := 125

/-- The player-state dictionary returned by `get_player_state` when the
world is loaded: position and orientation floats. -/
structure PlayerState where
  x : Rat
  y : Rat
  z : Rat
  yaw : Rat
  pitch : Rat

/-- The crosshair-target dictionary returned by `get_crosshair_block` when
a block is targeted: integer block coordinates. -/
structure BlockPos where
  x : Int
  y : Int
  z : Int

/-- `build_state_payload` from the source, with the two Minescript
accessors (external collaborators) passed in as their possible results:
`none` when the world is not loaded / no block is targeted. The
`lookingAt` field is appended only when a block is targeted. -/
def build_state_payload (st : Option PlayerState) (looking : Option BlockPos) :
    Option Jval :=
  match st with
  | none => none
  | some st =>
    some (jobj
      ([("type", jstr "state"), ("v", jnum (PROTOCOL_VERSION : Rat)),
        ("position", jobj [("x", jnum st.x), ("y", jnum st.y), ("z", jnum st.z)]),
        ("rotation", jobj [("yaw", jnum st.yaw), ("pitch", jnum st.pitch)])] ++
       match looking with
       | none => []
       | some lb =>
         [("lookingAt",
           jobj [("x", jnum (lb.x : Rat)), ("y", jnum (lb.y : Rat)),
                 ("z", jnum (lb.z : Rat))])]))

/-- Modelled from the spec: the remote receiver is out of scope of the
repository (only the message shape is specified), so a conforming
receiver's extraction of the `lookingAt` integer triple from a state frame
is taken from the spec's wire contract
`state: {..., lookingAt?: {x,y,z:<int>}}`. -/
def decode_lookingAt_payload (p : Option Jval) : Option (Int × Int × Int) :=
  match p with
  | some (jobj fields) =>
    match jlookup fields "lookingAt" with
    | some (jobj lf) =>
      match jlookup lf "x", jlookup lf "y", jlookup lf "z" with
      | some (jnum qx), some (jnum qy), some (jnum qz) =>
        if qx.den = 1 ∧ qy.den = 1 ∧ qz.den = 1 then
          some (qx.num, qy.num, qz.num)
        else none
      | _, _, _ => none
    | _ => none
  | _ => none

/-- The hello frame built in `WSClient._async_main`: `type` and `v`, and
the `secret` field only when the configured secret is non-empty (Python
truthiness of the string). -/
def build_hello (secret : String) : Jval :=
  jobj ([("type", jstr "hello"), ("v", jnum (PROTOCOL_VERSION : Rat))] ++
    (if secret = "" then [] else [("secret", jstr secret)]))

/-- The sender loop's stop test `item.get("_type") == "STOP"`: true exactly
when the item's `_type` key holds the string `"STOP"`. -/
def is_stop_item (item : List (String × Jval)) : Bool :=
  match jlookup item "_type" with
  | some (jstr s) => s = "STOP"
  | _ => false

/-- The stop sentinel `{"_type": "STOP"}` enqueued by `WSClient.stop`. -/
def STOP_SENTINEL : List (String × Jval) := [("_type", jstr "STOP")]

/-- The frames the sender loop of `WSClient._async_main` writes for a given
queue content: items are serialized and sent in FIFO order until an item
whose `_type` is `"STOP"` is dequeued, which ends the loop without being
transmitted. -/
def sender_frames : List (List (String × Jval)) → List Jval
  | [] => []
  | item :: rest =>
    if is_stop_item item then [] else jobj item :: sender_frames rest

/-- Everything one established connection sends, in order: the hello frame
first (sent unconditionally before the receiver task is even created — no
reply is awaited), then the sender loop's frames. The inbound side is not
an input: nothing received can reorder or precede the hello. -/
def connection_sends (secret : String)
    (queue : List (List (String × Jval))) : List Jval :=
  build_hello secret :: sender_frames queue

/-- One raw inbound frame as seen by `_recv_loop`: either `json.loads`
raises (malformed text) or it returns a decoded value. -/
inductive RawFrame where
  | malformed : RawFrame
  | value (j : Jval) : RawFrame

/-- An error diagnostic surfaced to the host by
`echo(f"[PrivateBridge] error: {code} {msg}")`: the frame's `code` value
(possibly absent) and its `message` value, defaulting to `""` as in
`data.get("message", "")`. -/
structure ErrDiag where
  code : Option Jval
  message : Jval

/-- The receiver's test `t == "error"` on `t = data.get("type")`. -/
def is_error_frame (fields : List (String × Jval)) : Bool :=
  match jlookup fields "type" with
  | some (jstr s) => s = "error"
  | _ => false

/-- The diagnostic the receiver surfaces for an error frame. -/
def error_diag (fields : List (String × Jval)) : ErrDiag :=
  ⟨jlookup fields "code", (jlookup fields "message").getD (jstr "")⟩

/-- `WSClient._recv_loop` over a list of inbound frames, returning the
surfaced diagnostics in order. A frame on which `json.loads` raises is
skipped by the inner handler and the loop continues. A decoded object is
dispatched on its `type`: `"error"` is surfaced, `"ack"` and everything
else do nothing, and the loop continues. A decoded non-object makes
`data.get("type")` raise `AttributeError`, which escapes the inner handler
and is swallowed by the outer one: the loop exits, processing no further
frames. -/
def recv_loop : List RawFrame → List ErrDiag
  | [] => []
  | RawFrame.malformed :: rest => recv_loop rest
  | RawFrame.value (jobj fields) :: rest =>
    if is_error_frame fields then error_diag fields :: recv_loop rest
    else recv_loop rest
  | RawFrame.value _ :: _ => []

/-- The Python-visible state of a `WSClient` instance: the unbounded send
queue, the lifecycle thread handle (`none` = no handle held, `some b` =
handle held with `is_alive() = b`), the stop event and the liveness flag. -/
structure WSClient where
  url : String
  secret : String
  tx_queue : List (List (String × Jval))
  thread : Option Bool
  stop_evt : Bool
  connected : Bool

/-- `WSClient.__init__`: empty queue, no thread, stop event clear, not
connected. -/
def WSClient.init (url secret : String) : WSClient :=
  ⟨url, secret, [], none, false, false⟩

/-- `WSClient.send`: enqueue the payload unmodified, without blocking.
`put_nowait` on an unbounded queue cannot raise, so the guarded log branch
is dead and the function is total. -/
def WSClient.send (c : WSClient) (payload : List (String × Jval)) : WSClient :=
  { c with tx_queue := c.tx_queue ++ [payload] }

/-- `WSClient.stop`: set the stop event, enqueue the stop sentinel, join
the thread if a handle is held (a bounded wait with no state effect in this
model), then drop the handle and clear the liveness flag. Every step is
total — `stop` raises on no state, including the fresh state and a state
already stopped. -/
def WSClient.stop (c : WSClient) : WSClient :=
  { c with
    stop_evt := true,
    tx_queue := c.tx_queue ++ [STOP_SENTINEL],
    thread := none,
    connected := false }

/-- `WSClient.start`: a no-op when the `websockets` dependency is missing
or when a live thread is already held; otherwise clear the stop event and
spawn the lifecycle thread. -/
def WSClient.start (c : WSClient) (hasWebsockets : Bool) : WSClient :=
  if hasWebsockets = false then c
  else
    match c.thread with
    | some true => c
    | _ => { c with stop_evt := false, thread := some true }

/-- `WSClient.is_connected`. -/
def WSClient.is_connected (c : WSClient) : Bool := c.connected

/-- The backoff floor `backoff = 0.5` of `_async_main`. -/
def BACKOFF_FLOOR : Rat := 1 / 2

/-- The update `backoff = min(backoff * 2.0, 5.0)` applied after each
reconnect sleep. All values reached are dyadic, so float arithmetic in the
source is exact and `Rat` models it faithfully. -/
def backoffNext (b : Rat) : Rat := min (b * 2) 5

/-- The delays `_async_main` sleeps before successive reconnect attempts,
given the backoff value at entry and one outcome per connection cycle
(`true` = `websockets.connect` succeeded, resetting the backoff to the
floor at the top of the session; `false` = the connect failed). In either
case the cycle ends by sleeping the current backoff and then doubling it,
capped at 5. The stop event is assumed unset (a set stop event breaks out
before sleeping and produces no further delays). -/
def reconnectDelays : Rat → List Bool → List Rat
  | _, [] => []
  | b, ok :: rest =>
    let b' := if ok then BACKOFF_FLOOR else b
    b' :: reconnectDelays (backoffNext b') rest

/-- The pure-failure delay sequence: floor, then doubling capped at 5. -/
def delaySeq : Nat → Rat
  | 0 => BACKOFF_FLOOR
  | n + 1 => backoffNext (delaySeq n)

/-- The periodic state push of `main`'s event loop (one iteration): when at
least `STATE_INTERVAL_MS` has elapsed since the last emission and the
client is connected, the last-emitted timestamp becomes the current time
and the freshly built state payload (`none` when the world is not loaded)
is enqueued if present; otherwise nothing changes. Returns the enqueued
frame, if any, and the new last-emitted timestamp. -/
def driver_state_tick (connected : Bool) (st : Option Jval)
    (last now : Rat) : Option Jval × Rat :=
  if STATE_INTERVAL_MS ≤ now - last ∧ connected = true then (st, now)
  else (none, last)

/-- Iterating `driver_state_tick` over the wake-up times of the driver
loop, collecting the enqueued state frames. -/
def run_driver_ticks (connected : Bool) (st : Option Jval) :
    Rat → List Rat → List Jval
  | _, [] => []
  | last, now :: rest =>
    let r := driver_state_tick connected st last now
    r.1.toList ++ run_driver_ticks connected st r.2 rest

/-- The command frame fields `main` builds for a recognized command:
`type`, `v` and `name` always, `args` only when the argument list is
non-empty (Python truthiness of the list). -/
def command_fields (name : List Char) (args : List (List Char)) :
    List (String × Jval) :=
  [("type", jstr "command"), ("v", jnum (PROTOCOL_VERSION : Rat)),
   ("name", jstr (String.mk name))] ++
  (if args = [] then []
   else [("args", jarr (args.map (fun a => jstr (String.mk a))))])

/-- The diagnostic text `f"[PrivateBridge] \x7bcmd['name']\x7d \x7b' '.join(cmd['args']) if cmd['args'] else ''\x7d"`:
the verb, one space, and the space-joined arguments (empty when there are
none). -/
def log_text (name : List Char) (args : List (List Char)) : List Char :=
  str2list "[PrivateBridge] " ++ name ++ [' '] ++
    (if args = [] then [] else List.intercalate [' '] args)

/-- The host-visible effects of one driver iteration. -/
inductive HostAction where
  | chat (s : List Char) : HostAction
  | sendFrame (j : Jval) : HostAction
  | logLine (s : List Char) : HostAction

/-- `main`'s handling of one `outgoing_chat_intercept` event:
`msg = (event.message or "").strip()` is parsed; a non-command is re-sent
as normal chat (exactly one `minescript.chat` call, nothing enqueued);
a recognized command is enqueued as a command frame and a diagnostic
line is logged. -/
def handle_chat_intercept (message : Option (List Char)) : List HostAction :=
  let msg := pyStrip (message.getD [])
  match parse_private_command msg with
  | none => [HostAction.chat msg]
  | some (name, args) =>
    [HostAction.sendFrame (jobj (command_fields name args)),
     HostAction.logLine (log_text name args)]

/-! ## Helper lemmas -/

theorem pyLower_of_pyIsSpace {c : Char} (h : pyIsSpace c = true) :
    pyLower c = c := by
  simp only [pyIsSpace, Bool.or_eq_true, beq_iff_eq] at h
  rcases h with ((((h | h) | h) | h) | h) | h <;> subst h <;> decide

theorem splitAux_ne_nil (s : List Char) (acc : List Char) (h : acc ≠ []) :
    splitAux s acc ≠ [] := by
  induction s generalizing acc with
  | nil => simp [splitAux, h]
  | cons c rest ih =>
    by_cases hc : pyIsSpace c
    · simp only [splitAux, hc, if_true, if_neg h]
      exact List.cons_ne_nil _ _
    · simp only [splitAux, hc, Bool.false_eq_true, if_false]
      exact ih _ (List.cons_ne_nil c acc)

theorem pySplit_cons_ne_nil {c : Char} (s : List Char)
    (h : pyIsSpace c = false) : pySplit (c :: s) ≠ [] := by
  simp only [pySplit, splitAux, h, Bool.false_eq_true, if_false]
  exact splitAux_ne_nil s [c] (List.cons_ne_nil c [])

theorem matchVerbThen_head {a : Char} {v' s : List Char}
    (ha : pyIsSpace a = false) (h : matchVerbThen (a :: v') s = true) :
    ∃ c s', s = c :: s' ∧ pyIsSpace c = false := by
  cases s with
  | nil => simp [matchVerbThen] at h
  | cons c s' =>
    refine ⟨c, s', rfl, ?_⟩
    simp only [matchVerbThen, Bool.and_eq_true, beq_iff_eq] at h
    by_contra hc
    rw [Bool.not_eq_false] at hc
    rw [pyLower_of_pyIsSpace hc] at h
    rw [h.1] at hc
    rw [ha] at hc
    exact Bool.false_ne_true hc

theorem command_pattern_match_cases {s : List Char}
    (h : command_pattern_match s = true) :
    ∃ c rest, s = '/' :: c :: rest ∧ pyIsSpace c = false := by
  cases s with
  | nil => simp [command_pattern_match] at h
  | cons a t =>
    simp only [command_pattern_match, Bool.and_eq_true, beq_iff_eq,
      List.any_eq_true] at h
    obtain ⟨ha, v, hv, hm⟩ := h
    subst ha
    have hverb : ∃ b v', v = b :: v' ∧ pyIsSpace b = false := by
      simp only [VERBS, List.mem_cons, List.not_mem_nil, or_false] at hv
      rcases hv with rfl | rfl | rfl | rfl
      · exact ⟨'c', _, rfl, by decide⟩
      · exact ⟨'f', _, rfl, by decide⟩
      · exact ⟨'m', _, rfl, by decide⟩
      · exact ⟨'h', _, rfl, by decide⟩
    obtain ⟨b, v', rfl, hb⟩ := hverb
    obtain ⟨c, s', rfl, hc⟩ := matchVerbThen_head hb hm
    exact ⟨c, s', rfl, hc⟩

theorem dropWhile_head_not {p : Char → Bool} {l : List Char} {c : Char}
    {t : List Char} (h : l.dropWhile p = c :: t) : p c = false := by
  induction l with
  | nil => simp [List.dropWhile] at h
  | cons a l' ih =>
    by_cases ha : p a
    · rw [List.dropWhile_cons_of_pos ha] at h
      exact ih h
    · rw [List.dropWhile_cons_of_neg ha] at h
      rw [← List.cons.injEq a l' c t |>.mp h |>.1]
      exact Bool.not_eq_true _ |>.mp ha

theorem dropWhile_eq_self_of_head {p : Char → Bool} {l : List Char}
    {d : Char} (h : l.head? = some d) (hd : p d = false) :
    l.dropWhile p = l := by
  cases l with
  | nil => simp at h
  | cons a t =>
    have : a = d := by simpa using h
    subst this
    exact List.dropWhile_cons_of_neg (by simp [hd])

theorem dropWhile_getLast? {p : Char → Bool} {l : List Char}
    (h : l.dropWhile p ≠ []) : (l.dropWhile p).getLast? = l.getLast? := by
  induction l with
  | nil => simp at h
  | cons a l' ih =>
    by_cases ha : p a
    · rw [List.dropWhile_cons_of_pos ha] at h ⊢
      cases hl : l' with
      | nil => subst hl; simp [List.dropWhile] at h
      | cons b t =>
        subst hl
        rw [ih h, List.getLast?_cons_cons]
    · rw [List.dropWhile_cons_of_neg ha]

theorem pyStrip_head_not {msg : List Char} {c : Char} {t : List Char}
    (h : pyStrip msg = c :: t) : pyIsSpace c = false := by
  unfold pyStrip at h
  set u := msg.dropWhile pyIsSpace with hu
  set z := u.reverse.dropWhile pyIsSpace with hz
  have hz_ne : z ≠ [] := by
    intro hzn
    rw [hzn] at h
    simp at h
  have hlast : z.getLast? = some c := by
    have := congrArg List.head? h
    rw [List.head?_reverse] at this
    simpa using this
  rw [hz, dropWhile_getLast? (hz.symm ▸ hz_ne), List.getLast?_reverse] at hlast
  cases hu' : u with
  | nil => rw [hu'] at hlast; simp at hlast
  | cons d t' =>
    rw [hu'] at hlast
    simp only [List.head?_cons, Option.some.injEq] at hlast
    subst hlast
    exact dropWhile_head_not (hu ▸ hu')

theorem pyStrip_getLast_not {msg : List Char} {c : Char} {t : List Char}
    (h : pyStrip msg = c :: t) :
    ∃ d, (c :: t).getLast? = some d ∧ pyIsSpace d = false := by
  unfold pyStrip at h
  set z := (msg.dropWhile pyIsSpace).reverse.dropWhile pyIsSpace with hz
  have hz_ne : z ≠ [] := by
    intro hzn
    rw [hzn] at h
    simp at h
  cases hz' : z with
  | nil => exact absurd hz' hz_ne
  | cons d t' =>
    refine ⟨d, ?_, dropWhile_head_not (hz ▸ hz')⟩
    rw [← h, hz', List.getLast?_reverse]
    rfl

theorem pyStrip_idem (s : List Char) : pyStrip (pyStrip s) = pyStrip s := by
  cases hq : pyStrip s with
  | nil => rfl
  | cons c t =>
    have hc := pyStrip_head_not hq
    obtain ⟨d, hd, hdns⟩ := pyStrip_getLast_not hq
    have h1 : List.dropWhile pyIsSpace (c :: t) = c :: t :=
      dropWhile_eq_self_of_head rfl hc
    have h2 : List.dropWhile pyIsSpace (c :: t).reverse = (c :: t).reverse := by
      refine dropWhile_eq_self_of_head ?_ hdns
      rw [List.head?_reverse]
      exact hd
    show ((List.dropWhile pyIsSpace (c :: t)).reverse.dropWhile
      pyIsSpace).reverse = c :: t
    rw [h1, h2, List.reverse_reverse]

theorem reconnectDelays_replicate_false (n : Nat) :
    ∀ b : Rat, reconnectDelays b (List.replicate n false) =
      (List.range n).map (fun i => backoffNext^[i] b) := by
  induction n with
  | zero => intro b; rfl
  | succ n ih =>
    intro b
    rw [List.replicate_succ, List.range_succ_eq_map]
    show b :: reconnectDelays (backoffNext b) (List.replicate n false) = _
    rw [ih (backoffNext b)]
    simp [Function.comp_def, Function.iterate_succ_apply]

theorem delaySeq_eq_iterate (n : Nat) :
    delaySeq n = backoffNext^[n] BACKOFF_FLOOR := by
  induction n with
  | zero => rfl
  | succ n ih =>
    show backoffNext (delaySeq n) = _
    rw [ih, Function.iterate_succ_apply']

/-! ## Claim theorems -/

/-- C1: for every text line whose whitespace-trimmed form matches the
whitelist pattern, `parse_private_command` returns a parsed command whose
verb is the first slash-stripped whitespace-split token lower-cased and
whose arguments are the remaining whitespace-split tokens in their
original case and original order. -/
theorem C1_parse_recognized (msg : List Char)
    (h : command_pattern_match (pyStrip msg) = true) :
    ∃ name args, pySplit (List.drop 1 (pyStrip msg)) = name :: args ∧
      parse_private_command msg = some (name.map pyLower, args) := by
  obtain ⟨c, rest, hs, hc⟩ := command_pattern_match_cases h
  have hmsg : msg ≠ [] := by
    intro he
    rw [he] at h
    simp [pyStrip, command_pattern_match] at h
  have hdrop : List.drop 1 (pyStrip msg) = c :: rest := by rw [hs]; rfl
  have hsplit : pySplit (List.drop 1 (pyStrip msg)) ≠ [] := by
    rw [hdrop]
    exact pySplit_cons_ne_nil rest hc
  obtain ⟨name, args, heq⟩ : ∃ name args,
      pySplit (List.drop 1 (pyStrip msg)) = name :: args := by
    cases hp : pySplit (List.drop 1 (pyStrip msg)) with
    | nil => exact absurd hp hsplit
    | cons n a => exact ⟨n, a, rfl⟩
  refine ⟨name, args, heq, ?_⟩
  unfold parse_private_command
  rw [if_neg hmsg, if_neg (by simp [h]), heq]

/-- C1 witness: the command line `"/Come 10 X"` matches the whitelist
pattern and parses to verb `"come"` with arguments `["10", "X"]` kept in
their original case and order. -/
theorem C1_witness :
    command_pattern_match (pyStrip (str2list "/Come 10 X")) = true ∧
    (∃ name args,
      pySplit (List.drop 1 (pyStrip (str2list "/Come 10 X"))) =
        name :: args ∧
      parse_private_command (str2list "/Come 10 X") =
        some (name.map pyLower, args)) :=
  ⟨by decide, C1_parse_recognized (str2list "/Come 10 X") (by decide)⟩

/-- C3: starting from a connect failure the delays slept before successive
reconnect attempts follow the sequence `delaySeq` — concretely 0.5s, 1s,
2s, 4s, 5s, 5s, … (each delay doubling the previous one, capped at 5s) —
and the delay slept after any cycle whose connect succeeded (resetting the
backoff at the top of the session, before the hello is even sent) is again
the 0.5s floor. -/
theorem C3_backoff :
    (∀ n : Nat, reconnectDelays BACKOFF_FLOOR (List.replicate n false) =
      (List.range n).map delaySeq) ∧
    reconnectDelays BACKOFF_FLOOR [false, false, false, false, false, false] =
      [1 / 2, 1, 2, 4, 5, 5] ∧
    (∀ n : Nat, 4 ≤ n → delaySeq n = 5) ∧
    (∀ (b : Rat) (pre post : List Bool),
      (reconnectDelays b (pre ++ true :: post)).getD pre.length 0 =
        BACKOFF_FLOOR) := by
  refine ⟨?_, ?_, ?_, ?_⟩
  · intro n
    rw [reconnectDelays_replicate_false n BACKOFF_FLOOR]
    have he : delaySeq = fun i => backoffNext^[i] BACKOFF_FLOOR :=
      funext delaySeq_eq_iterate
    rw [he]
  · norm_num [reconnectDelays, backoffNext, BACKOFF_FLOOR, min_def]
  · intro n hn
    induction n, hn using Nat.le_induction with
    | base =>
      have h4 : delaySeq 4 =
          backoffNext (backoffNext (backoffNext (backoffNext
            BACKOFF_FLOOR))) := rfl
      rw [h4]
      norm_num [backoffNext, BACKOFF_FLOOR, min_def]
    | succ n hn ih =>
      show backoffNext (delaySeq n) = 5
      rw [ih]
      norm_num [backoffNext, min_def]
  · intro b pre post
    induction pre generalizing b with
    | nil =>
      show ((if true = true then BACKOFF_FLOOR else b) ::
        reconnectDelays (backoffNext (if true = true then BACKOFF_FLOOR
          else b)) post).getD 0 0 = BACKOFF_FLOOR
      simp
    | cons x pre' ih =>
      show ((if x = true then BACKOFF_FLOOR else b) ::
        reconnectDelays (backoffNext (if x = true then BACKOFF_FLOOR
          else b)) (pre' ++ true :: post)).getD
            (pre'.length + 1) 0 = BACKOFF_FLOOR
      rw [List.getD_cons_succ]
      exact ih _

/-- C3 witness: six consecutive failures from a fresh failure sleep
exactly 0.5, 1, 2, 4, 5, 5 seconds; the doubling is capped at 5 from the
fifth delay on; and in a trace whose second cycle reconnects successfully
the delay slept after that cycle is back at the 0.5 floor. -/
theorem C3_witness :
    reconnectDelays BACKOFF_FLOOR (List.replicate 6 false) =
      (List.range 6).map delaySeq ∧
    reconnectDelays BACKOFF_FLOOR [false, false, false, false, false, false] =
      [1 / 2, 1, 2, 4, 5, 5] ∧
    (4 ≤ 6 ∧ delaySeq 6 = 5) ∧
    (reconnectDelays BACKOFF_FLOOR ([false] ++ true :: [false])).getD 1 0 =
      BACKOFF_FLOOR :=
  ⟨C3_backoff.1 6, C3_backoff.2.1,
   ⟨by norm_num, C3_backoff.2.2.1 6 (by norm_num)⟩,
   C3_backoff.2.2.2 BACKOFF_FLOOR [false] [false]⟩

/-- C2 counterexample: the intercepted line `" hello there "` does not
match the whitelist pattern and the parser returns "not a command", but the
driver re-delivers the *stripped* line `"hello there"`, which differs from
the original line — the original line is not re-delivered verbatim. -/
theorem C2_counterexample :
    parse_private_command (pyStrip (str2list " hello there ")) = none ∧
    handle_chat_intercept (some (str2list " hello there ")) =
      [HostAction.chat (str2list "hello there")] ∧
    str2list "hello there" ≠ str2list " hello there " := by
  refine ⟨rfl, rfl, ?_⟩
  decide

/-- C2 amended: for every intercepted text line that does not match the
whitelist pattern, the Command Parser returns "not a command", and the
Session Driver re-delivers the whitespace-trimmed form of that line to the
host's normal output path exactly once — a single `chat` action and no
enqueued frame. -/
theorem C2_noncommand_redelivered (message : Option (List Char))
    (h : command_pattern_match (pyStrip (message.getD [])) = false) :
    parse_private_command (pyStrip (message.getD [])) = none ∧
    handle_chat_intercept message =
      [HostAction.chat (pyStrip (message.getD []))] := by
  have hp : parse_private_command (pyStrip (message.getD [])) = none := by
    unfold parse_private_command
    by_cases he : pyStrip (message.getD []) = []
    · rw [if_pos he]
    · rw [if_neg he, if_pos (by rw [pyStrip_idem]; exact h)]
  refine ⟨hp, ?_⟩
  show (match parse_private_command (pyStrip (message.getD [])) with
    | none => [HostAction.chat (pyStrip (message.getD []))]
    | some (name, args) =>
      [HostAction.sendFrame (jobj (command_fields name args)),
       HostAction.logLine (log_text name args)]) =
    [HostAction.chat (pyStrip (message.getD []))]
  rw [hp]

/-- C2 witness: the plain chat line `"hello there"` does not match the
pattern, parses to "not a command", and is re-delivered as exactly one
chat action. -/
theorem C2_witness :
    command_pattern_match
      (pyStrip ((some (str2list "hello there")).getD [])) = false ∧
    (parse_private_command
        (pyStrip ((some (str2list "hello there")).getD [])) = none ∧
      handle_chat_intercept (some (str2list "hello there")) =
        [HostAction.chat
          (pyStrip ((some (str2list "hello there")).getD []))]) :=
  ⟨by decide, C2_noncommand_redelivered (some (str2list "hello there"))
    (by decide)⟩

/-- C4: encoding a state whose target block is present and decoding the
resulting frame (with the receiver modelled from the spec's wire contract)
yields the same three integer coordinates; when the target block is absent
the `lookingAt` key is omitted from the encoded object entirely, so absence
(`none` on decode) is distinguishable from the present coordinates
(0, 0, 0) (`some (0, 0, 0)` on decode). -/
theorem C4_state_roundtrip :
    (∀ (st : PlayerState) (lb : BlockPos),
      decode_lookingAt_payload (build_state_payload (some st) (some lb)) =
        some (lb.x, lb.y, lb.z)) ∧
    (∀ st : PlayerState,
      jobjHasKey ((build_state_payload (some st) none).getD jnull)
        "lookingAt" = false) ∧
    (∀ st : PlayerState,
      decode_lookingAt_payload
          (build_state_payload (some st) (some ⟨0, 0, 0⟩)) =
        some (0, 0, 0) ∧
      decode_lookingAt_payload (build_state_payload (some st) none) =
        none) := by
  refine ⟨?_, ?_, ?_⟩
  · intro st lb
    show (if (lb.x : Rat).den = 1 ∧ (lb.y : Rat).den = 1 ∧
        (lb.z : Rat).den = 1 then
        some ((lb.x : Rat).num, (lb.y : Rat).num, (lb.z : Rat).num)
      else none) = some (lb.x, lb.y, lb.z)
    simp [Rat.den_intCast, Rat.num_intCast]
  · intro st
    rfl
  · intro st
    refine ⟨?_, rfl⟩
    show (if ((0 : Int) : Rat).den = 1 ∧ ((0 : Int) : Rat).den = 1 ∧
        ((0 : Int) : Rat).den = 1 then
        some (((0 : Int) : Rat).num, ((0 : Int) : Rat).num,
          ((0 : Int) : Rat).num)
      else none) = some (0, 0, 0)
    simp [Rat.den_intCast, Rat.num_intCast]

/-- C5: for every recognized command the enqueued frame carries
`type = "command"`, the protocol version and the verb name, with the `args`
field present exactly when the argument list is non-empty; concretely the
input line `"/come 10 64 -5"` produces the frame
`\x7b"type":"command","v":1,"name":"come","args":["10","64","-5"]\x7d` and
a diagnostic log line mentioning `come` and `10 64 -5`. -/
theorem C5_command_frame :
    (∀ (name : List Char) (args : List (List Char)),
      jlookup (command_fields name args) "type" = some (jstr "command") ∧
      jlookup (command_fields name args) "v" =
        some (jnum (PROTOCOL_VERSION : Rat)) ∧
      jlookup (command_fields name args) "name" =
        some (jstr (String.mk name)) ∧
      ((jlookup (command_fields name args) "args").isSome = true ↔
        args ≠ [])) ∧
    handle_chat_intercept (some (str2list "/come 10 64 -5")) =
      [HostAction.sendFrame (jobj
        [("type", jstr "command"), ("v", jnum 1), ("name", jstr "come"),
         ("args", jarr [jstr "10", jstr "64", jstr "-5"])]),
       HostAction.logLine (str2list "[PrivateBridge] come 10 64 -5")] := by
  refine ⟨?_, rfl⟩
  intro name args
  refine ⟨rfl, rfl, rfl, ?_⟩
  by_cases h : args = []
  · subst h
    simp [command_fields, jlookup]
  · rw [command_fields, if_neg h]
    simp [jlookup, h]

/-- C6: on every connection the hello frame is the head of everything the
connection sends — built and written before the receiver task exists and
before any queue item, with nothing inbound as an input (no reply is
awaited) — and its `secret` field is present exactly when the configured
secret is non-empty. -/
theorem C6_hello_first :
    (∀ (secret : String) (queue : List (List (String × Jval))),
      (connection_sends secret queue).head? = some (build_hello secret)) ∧
    (∀ secret : String,
      jobjHasKey (build_hello secret) "secret" = true ↔ secret ≠ "") := by
  refine ⟨fun _ _ => rfl, ?_⟩
  intro secret
  by_cases h : secret = ""
  · subst h
    simp [build_hello, jobjHasKey]
  · rw [build_hello, if_neg h]
    simp [jobjHasKey, h]

/-- C7 counterexample: the inbound frame `42` decodes successfully (it is
not a decode failure) to a message with no recognizable type, yet it is not
merely ignored: it silently terminates the receive loop, so an error frame
arriving right after it is never surfaced — processed alone, the same error
frame is surfaced. -/
theorem C7_counterexample :
    recv_loop [RawFrame.value (jnum 42),
      RawFrame.value (jobj [("type", jstr "error"), ("code", jnum 7)])] =
      [] ∧
    recv_loop
        [RawFrame.value (jobj [("type", jstr "error"), ("code", jnum 7)])] =
      [⟨some (jnum 7), jstr ""⟩] :=
  ⟨rfl, rfl⟩

/-- C7 amended: a frame that fails to decode is silently discarded and the
receive loop continues; a frame that decodes to an object with type
`"error"` has its code and message surfaced and processing continues (the
connection stays open); a decoded object of any other type — `"ack"`
included — is ignored and processing continues; but a frame that decodes to
a non-object value silently terminates the receive loop, processing no
further frames. -/
theorem C7_recv_dispatch :
    (∀ rest, recv_loop (RawFrame.malformed :: rest) = recv_loop rest) ∧
    (∀ fields rest, is_error_frame fields = true →
      recv_loop (RawFrame.value (jobj fields) :: rest) =
        error_diag fields :: recv_loop rest) ∧
    (∀ fields rest, is_error_frame fields = false →
      recv_loop (RawFrame.value (jobj fields) :: rest) = recv_loop rest) ∧
    (∀ j rest, isJObj j = false →
      recv_loop (RawFrame.value j :: rest) = []) := by
  refine ⟨fun rest => rfl, ?_, ?_, ?_⟩
  · intro fields rest h
    show (if is_error_frame fields then error_diag fields :: recv_loop rest
      else recv_loop rest) = error_diag fields :: recv_loop rest
    rw [if_pos h]
  · intro fields rest h
    show (if is_error_frame fields then error_diag fields :: recv_loop rest
      else recv_loop rest) = recv_loop rest
    rw [if_neg (by simp [h])]
  · intro j rest h
    cases j with
    | jobj fields => simp [isJObj] at h
    | jnull => rfl
    | jbool b => rfl
    | jnum q => rfl
    | jstr s => rfl
    | jarr xs => rfl

/-- C7 witness: a malformed frame is skipped; an error frame with code 7
and no message is surfaced as code 7 with empty message and the loop
continues; an ack frame is ignored and the loop continues; the decoded
non-object `42` ends the loop. -/
theorem C7_witness :
    recv_loop [RawFrame.malformed] = recv_loop [] ∧
    recv_loop [RawFrame.value
        (jobj [("type", jstr "error"), ("code", jnum 7)])] =
      error_diag [("type", jstr "error"), ("code", jnum 7)] ::
        recv_loop [] ∧
    recv_loop [RawFrame.value (jobj [("type", jstr "ack")])] =
      recv_loop [] ∧
    recv_loop [RawFrame.value (jnum 42)] = [] :=
  ⟨C7_recv_dispatch.1 [],
   C7_recv_dispatch.2.1 [("type", jstr "error"), ("code", jnum 7)] [] rfl,
   C7_recv_dispatch.2.2.1 [("type", jstr "ack")] [] rfl,
   C7_recv_dispatch.2.2.2 (jnum 42) [] rfl⟩

/-- C8: `stop()` is a total function of the client state — calling it
twice in succession, or on a freshly constructed client that was never
started, cannot raise — and afterwards the client is disconnected
(`is_connected()` false, no lifecycle thread handle held) and a fresh
`start()` spawns the lifecycle thread again with the stop event cleared. -/
theorem C8_stop_safe (c : WSClient) :
    (c.stop).is_connected = false ∧
    (c.stop).thread = none ∧
    ((c.stop).stop).is_connected = false ∧
    ((c.stop).stop).thread = none ∧
    ((WSClient.init c.url c.secret).stop).is_connected = false ∧
    ((WSClient.init c.url c.secret).stop).thread = none ∧
    (((c.stop).stop).start true).thread = some true ∧
    (((c.stop).stop).start true).stop_evt = false :=
  ⟨rfl, rfl, rfl, rfl, rfl, rfl, rfl, rfl⟩

/-- C9 counterexample: on an iteration where the client is connected and a
full sampling interval (125 ms) has elapsed, but the world is not loaded
(`build_state_payload` returns `None`), no State message is enqueued —
refuting "enqueued if and only if connected and the interval elapsed" —
while the last-emitted timestamp still advances to the current time. -/
theorem C9_counterexample :
    build_state_payload none none = none ∧
    STATE_INTERVAL_MS ≤ (125 : Rat) - 0 ∧
    driver_state_tick true (build_state_payload none none) 0 125 =
      (none, 125) := by
  refine ⟨rfl, by norm_num [STATE_INTERVAL_MS], ?_⟩
  show (if STATE_INTERVAL_MS ≤ (125 : Rat) - 0 ∧ true = true
    then ((none : Option Jval), (125 : Rat)) else (none, 0)) = (none, 125)
  rw [if_pos ⟨by norm_num [STATE_INTERVAL_MS], rfl⟩]

/-- C9 amended: on each driver iteration a State message is enqueued if
and only if the client is connected, at least the sampling interval has
elapsed since the last emission, and the state payload is available; when
connected and the interval has elapsed, the last-emitted timestamp is set
to the current time (not incremented by the fixed interval) even if no
payload was available; otherwise nothing changes. In particular 500 ms of
elapsed time with a 125 ms interval, a connected client and available
payloads yields exactly 4 enqueued State messages. -/
theorem C9_cadence :
    (∀ (conn : Bool) (st : Option Jval) (last now : Rat),
      (STATE_INTERVAL_MS ≤ now - last ∧ conn = true →
        driver_state_tick conn st last now = (st, now)) ∧
      (¬ (STATE_INTERVAL_MS ≤ now - last ∧ conn = true) →
        driver_state_tick conn st last now = (none, last)) ∧
      ((driver_state_tick conn st last now).1.isSome = true ↔
        STATE_INTERVAL_MS ≤ now - last ∧ conn = true ∧
          st.isSome = true)) ∧
    (∀ j : Jval, run_driver_ticks true (some j) 0 [125, 250, 375, 500] =
      [j, j, j, j]) := by
  constructor
  · intro conn st last now
    refine ⟨fun h => ?_, fun h => ?_, ?_⟩
    · rw [driver_state_tick, if_pos h]
    · rw [driver_state_tick, if_neg h]
    · rw [driver_state_tick]
      by_cases h : STATE_INTERVAL_MS ≤ now - last ∧ conn = true
      · rw [if_pos h]
        simp [h.1, h.2]
      · rw [if_neg h]
        simp only [Option.isSome_none, Bool.false_eq_true, false_iff]
        intro hcon
        exact h ⟨hcon.1, hcon.2.1⟩
  · intro j
    have h1 : driver_state_tick true (some j) 0 125 = (some j, 125) := by
      rw [driver_state_tick,
        if_pos ⟨by norm_num [STATE_INTERVAL_MS], rfl⟩]
    have h2 : driver_state_tick true (some j) 125 250 = (some j, 250) := by
      rw [driver_state_tick,
        if_pos ⟨by norm_num [STATE_INTERVAL_MS], rfl⟩]
    have h3 : driver_state_tick true (some j) 250 375 = (some j, 375) := by
      rw [driver_state_tick,
        if_pos ⟨by norm_num [STATE_INTERVAL_MS], rfl⟩]
    have h4 : driver_state_tick true (some j) 375 500 = (some j, 500) := by
      rw [driver_state_tick,
        if_pos ⟨by norm_num [STATE_INTERVAL_MS], rfl⟩]
    show (driver_state_tick true (some j) 0 125).1.toList ++ _ = _
    rw [h1]
    show j :: ((driver_state_tick true (some j) 125 250).1.toList ++ _) = _
    rw [h2]
    show j :: j ::
      ((driver_state_tick true (some j) 250 375).1.toList ++ _) = _
    rw [h3]
    show j :: j :: j ::
      ((driver_state_tick true (some j) 375 500).1.toList ++ _) = _
    rw [h4]
    rfl

/-- C9 witness: a tick at time 125 with a payload available emits it and
advances the timestamp to 125 (not to `last + interval` of an earlier
boundary), a tick with the interval not yet elapsed changes nothing, and
the 500 ms / 125 ms scenario enqueues exactly 4 State messages. -/
theorem C9_witness :
    driver_state_tick true (some (jstr "s")) 0 125 =
      (some (jstr "s"), 125) ∧
    driver_state_tick true (some (jstr "s")) 125 200 = (none, 125) ∧
    run_driver_ticks true (some (jstr "s")) 0 [125, 250, 375, 500] =
      [jstr "s", jstr "s", jstr "s", jstr "s"] :=
  ⟨(C9_cadence.1 true (some (jstr "s")) 0 125).1
      ⟨by norm_num [STATE_INTERVAL_MS], rfl⟩,
   (C9_cadence.1 true (some (jstr "s")) 125 200).2.1
      (by norm_num [STATE_INTERVAL_MS]),
   C9_cadence.2 (jstr "s")⟩

/-- C10: any caller-supplied payload whose `_type` key equals `"STOP"`
makes the sender loop, upon dequeuing it, exit without transmitting it —
exactly as the stop sentinel does — and `send()` enqueues such a payload
unmodified, so the stop sentinel is not distinguishable from
caller-supplied payloads. -/
theorem C10_stop_forgeable (item : List (String × Jval))
    (queue : List (List (String × Jval)))
    (h : jlookup item "_type" = some (jstr "STOP")) :
    sender_frames (item :: queue) = [] ∧
    sender_frames (item :: queue) = sender_frames (STOP_SENTINEL :: queue) ∧
    (∀ c : WSClient, (c.send item).tx_queue = c.tx_queue ++ [item]) := by
  have hstop : is_stop_item item = true := by
    rw [is_stop_item, h]
    rfl
  have hframes : sender_frames (item :: queue) = [] := by
    rw [sender_frames, if_pos hstop]
  refine ⟨hframes, ?_, fun c => rfl⟩
  rw [hframes, sender_frames, if_pos (show is_stop_item STOP_SENTINEL = true
    from rfl)]

/-- C10 witness: the payload `\x7b"_type": "STOP", "note": 3\x7d` was
never produced by `stop()`, yet dequeuing it ends the sender loop without
transmission, exactly like the real sentinel, and `send` enqueues it
verbatim. -/
theorem C10_witness :
    jlookup [("_type", jstr "STOP"), ("note", jnum 3)] "_type" =
      some (jstr "STOP") ∧
    (sender_frames
        ([("_type", jstr "STOP"), ("note", jnum 3)] ::
          [[("a", jnum 1)]]) = [] ∧
      sender_frames
          ([("_type", jstr "STOP"), ("note", jnum 3)] ::
            [[("a", jnum 1)]]) =
        sender_frames (STOP_SENTINEL :: [[("a", jnum 1)]]) ∧
      (∀ c : WSClient,
        (c.send [("_type", jstr "STOP"), ("note", jnum 3)]).tx_queue =
          c.tx_queue ++ [[("_type", jstr "STOP"), ("note", jnum 3)]])) :=
  ⟨rfl, C10_stop_forgeable [("_type", jstr "STOP"), ("note", jnum 3)]
    [[("a", jnum 1)]] rfl⟩
